import Mathlib

/-!
Verification of the SwitchBot console dashboard
(`src/tools/ai_generated_console_dash_ncurses.c`) against its natural-language
specification.  The C program is shallowly embedded: C `int` / `long long`
arithmetic is modelled on `Int` (with explicit 32-bit wraparound where a value
is converted to `int`), C `double` values stored and summed by the program are
modelled as rationals, and the dew-point computation (which uses `log`) is
modelled over the reals.  C strings are modelled as Lean `String`s, with the
`snprintf` truncation into the fixed 96-byte buffers modelled as `take 95`
(byte = character for the ASCII inputs considered here).
-/

namespace SwitchbotDash

/-- The C helper `imin` (line 42): minimum of two ints. -/
def imin (a b : Int) : Int := if a < b then a else b

/-- The C helper `imax` (line 43): maximum of two ints. -/
def imax (a b : Int) : Int := if a > b then a else b

/-- Conversion of a C `long long` value to a 32-bit `int`
(gcc semantics: reduction modulo 2^32 into `[-2^31, 2^31)`). -/
def wrap32 (x : Int) : Int := (x + 2 ^ 31) % 2 ^ 32 - 2 ^ 31

/-- The age computation of `draw_table` (line 400):
`long long age = imax(0, now_i() - d->ts);`.
Both arguments of `imax` are C `int`s, so the `long long` difference
`now - ts` is first truncated to 32 bits. -/
def age_of (now ts : Int) : Int := imax 0 (wrap32 (now - ts))

/-- The C predicate `isspace` on the characters it recognises
(space, tab, newline, vertical tab, form feed, carriage return). -/
def c_isspace (c : Char) : Bool :=
  c == ' ' || c == '\t' || c == '\n' || c == '\x0b' || c == '\x0c' || c == '\r'

/-- ASCII decimal digit test, as used by C `atoi`. -/
def c_isdigit (c : Char) : Bool := '0' ≤ c && c ≤ '9'

/-- The digit-accumulation loop of C `atoi`: consume leading digits,
stop at the first non-digit. -/
def atoi_loop : List Char → Int → Int
  | [], acc => acc
  | c :: cs, acc =>
    if c_isdigit c then atoi_loop cs (acc * 10 + ((c.toNat - '0'.toNat : Nat) : Int))
    else acc

/-- C `atoi` (as called in `main`, line 454): skip leading whitespace, read an
optional sign and then a maximal run of decimal digits, ignore the rest of the
string; no digits yields 0.  (C `atoi` overflow is undefined behaviour; the
model computes the unbounded value.) -/
def atoi (s : String) : Int :=
  match s.data.dropWhile c_isspace with
  | [] => 0
  | c :: cs =>
    if c = '-' then - atoi_loop cs 0
    else if c = '+' then atoi_loop cs 0
    else atoi_loop (c :: cs) 0

/-- The freshness-window configuration logic of `main` (lines 452-456):
`g_stale_secs` is 900 unless `SB_STALE_SECS` is set, non-empty, and
`atoi` of it lies strictly between 0 and 86400. -/
def stale_secs_of_env (e : Option String) : Int :=
  match e with
  | none => 900
  | some s =>
    if s.isEmpty then 900
    else if 0 < atoi s ∧ atoi s < 86400 then atoi s else 900

/-- The candidate digit run of a strict numeral: the whole string with an
optional leading plus sign removed (helper for `spec_pos_int_value`). -/
def spec_digits (s : String) : List Char :=
  match s.data with
  | [] => []
  | c :: rest => if c = '+' then rest else c :: rest

/-- Modelled from the spec wording, for comparison with the code:
"it parses as a positive integer" read strictly, i.e. the whole value is a
decimal numeral (with an optional leading plus sign) and nothing else. -/
def spec_pos_int_value (s : String) : Option Int :=
  if spec_digits s ≠ [] ∧ (spec_digits s).all c_isdigit then
    some (atoi_loop (spec_digits s) 0)
  else none

/-- The four scroll keys handled by `main` (lines 509-512). -/
inductive ScrollCmd where
  | down1
  | up1
  | pageDown
  | pageUp
  deriving DecidableEq

/-- One keystroke's effect on the scroll state (`main`, lines 509-512):
scroll-down adds 1 with no clamp, scroll-up subtracts 1 clamped at 0,
page-down adds 10 with no clamp, page-up subtracts 10 clamped at 0. -/
def scroll_step (s : Int) (c : ScrollCmd) : Int :=
  match c with
  | .down1 => s + 1
  | .up1 => imax 0 (s - 1)
  | .pageDown => s + 10
  | .pageUp => imax 0 (s - 10)

/-- The scroll state after a sequence of scroll keystrokes, starting from the
initial `int scroll = 0` of `main`. -/
def scroll_run (cmds : List ScrollCmd) : Int := cmds.foldl scroll_step 0

/-- The per-frame clamping of the starting row in `draw_table`
(lines 391-393): `start = scroll; if (start < 0) start = 0;
if (start > rc - max_rows) start = imax(0, rc - max_rows);`. -/
def clamp_start (scroll rc max_rows : Int) : Int :=
  let s1 := if scroll < 0 then 0 else scroll
  if s1 > rc - max_rows then imax 0 (rc - max_rows) else s1

/-- C `tolower` on the ASCII range, as used through `equals_ci`. -/
def c_tolower (c : Char) : Char :=
  if 'A' ≤ c ∧ c ≤ 'Z' then Char.ofNat (c.toNat + 32) else c

/-- The C helper `equals_ci` (lines 60-67): case-insensitive string equality
via per-character `tolower`. -/
def equals_ci (a b : String) : Bool :=
  a.data.map c_tolower == b.data.map c_tolower

/-- The C helper `trim_inplace` (lines 52-59): strip leading and trailing
`isspace` characters. -/
def c_trim (s : String) : String :=
  String.mk (((s.data.dropWhile c_isspace).reverse.dropWhile c_isspace).reverse)

/-- The `snprintf` copy into a fixed buffer of `n + 1` bytes: keep the first
`n` characters (byte = character for ASCII). -/
def c_take (n : Nat) (s : String) : String := String.mk (s.data.take n)

/-- The C function `excluded_location` (lines 184-186): a location is excluded iff it
case-insensitively equals "attic". -/
def excluded_location (loc : String) : Bool := equals_ci loc "attic"

/-- The registry capacity `MAX_DEVICES` (line 27). -/
def MAX_DEVICES : Nat := 1024

/-- The C struct `Device` (lines 79-85).  The `double` fields are modelled as
rationals; `has_temp` / `has_rh` are the presence flags. -/
structure Device where
  id : String
  location : String
  ts : Int
  temp : ℚ
  has_temp : Bool
  rh : ℚ
  has_rh : Bool
  deriving DecidableEq

/-- A freshly added registry slot, as initialised by `add_device`
(lines 174-182): zeroed timestamp, values and presence flags. -/
def blank_device (id loc : String) : Device :=
  ⟨id, loc, 0, 0, false, 0, false⟩

/-- The C function `find_device` (lines 168-173): index of the first entry whose id and
location both match exactly (C `strcmp`). -/
def find_device (devs : List Device) (id loc : String) : Option Nat :=
  devs.findIdx? (fun d => d.id == id && d.location == loc)

/-- The field-update portion of `process_json_line` (lines 258-260): the
timestamp is overwritten unconditionally; temperature and humidity (value and
flag) are overwritten only when the incoming reading carries them. -/
def update_device (d : Device) (ts : Int) (temp rh : Option ℚ) : Device :=
  { d with
    ts := ts
    temp := temp.getD d.temp
    has_temp := d.has_temp || temp.isSome
    rh := rh.getD d.rh
    has_rh := d.has_rh || rh.isSome }

/-- The registry update of `process_json_line` (lines 254-262) for an already
decoded, trimmed, non-excluded reading: update the existing entry if the
(id, location) key is present, otherwise append a new entry unless the
registry is at `MAX_DEVICES` capacity (in which case the reading is dropped). -/
def registry_upsert (devs : List Device) (id loc : String) (ts : Int)
    (temp rh : Option ℚ) : List Device :=
  match find_device devs id loc with
  | some i =>
    match devs[i]? with
    | some d => devs.set i (update_device d ts temp rh)
    | none => devs
  | none =>
    if devs.length < MAX_DEVICES then
      devs ++ [update_device (blank_device id loc) ts temp rh]
    else devs

/-- JSON values as produced by jansson's `json_loads`. Numbers keep jansson's
integer / real distinction; reals are modelled as rationals. -/
inductive Json where
  | jnull
  | jbool (b : Bool)
  | jint (n : Int)
  | jreal (q : ℚ)
  | jstr (s : String)
  | jarr (xs : List Json)
  | jobj (fields : List (String × Json))

/-- jansson `json_object_get`: value of the first field with the given key. -/
def obj_get (fields : List (String × Json)) (key : String) : Option Json :=
  (fields.find? (fun p => p.1 == key)).map (·.2)

/-- jansson `json_is_string` plus `json_string_value`: the payload of a string
value, nothing otherwise. -/
def json_str : Option Json → Option String
  | some (.jstr s) => some s
  | _ => none

/-- The jansson pair `json_is_number` plus `json_number_value`: the numeric payload of an
integer or real value, nothing otherwise. -/
def json_num : Option Json → Option ℚ
  | some (.jint n) => some (n : ℚ)
  | some (.jreal q) => some q
  | _ => none

/-- Truncation of a rational toward zero, as in the C cast
`(long long)json_number_value(...)`. -/
def trunc_q (q : ℚ) : Int := q.num.tdiv (q.den : Int)

/-- The timestamp extraction of `process_json_line` (lines 214-224): an
integer or real "ts" field (truncated toward zero), else "time", else 0; a
zero result is replaced by the current wall-clock time. -/
def decode_ts (now : Int) (fields : List (String × Json)) : Int :=
  let ts0 : Int :=
    match obj_get fields "ts" with
    | some (.jint n) => n
    | some (.jreal q) => trunc_q q
    | _ => 0
  let ts1 : Int :=
    if ts0 = 0 then
      match obj_get fields "time" with
      | some (.jint n) => n
      | some (.jreal q) => trunc_q q
      | _ => 0
    else ts0
  if ts1 = 0 then now else ts1

/-- The identifier extraction of `process_json_line` (lines 194-202):
field "id" if it is a string, else "device_id" if it is a string,
else nothing. -/
def decode_id (fields : List (String × Json)) : Option String :=
  (json_str (obj_get fields "id")).orElse
    (fun _ => json_str (obj_get fields "device_id"))

/-- The location extraction of `process_json_line` (lines 204-212):
field "location" if a string, else "room" if a string, else "unknown". -/
def decode_location (fields : List (String × Json)) : String :=
  ((json_str (obj_get fields "location")).orElse
    (fun _ => json_str (obj_get fields "room"))).getD "unknown"

/-- The temperature extraction of `process_json_line` (lines 226-237):
first numeric field among "temp", "temperature", "temperature_c". -/
def decode_temp (fields : List (String × Json)) : Option ℚ :=
  ((json_num (obj_get fields "temp")).orElse
    (fun _ => json_num (obj_get fields "temperature"))).orElse
    (fun _ => json_num (obj_get fields "temperature_c"))

/-- The humidity extraction of `process_json_line` (lines 239-245):
first numeric field among "humidity", "humidity_pct". -/
def decode_rh (fields : List (String × Json)) : Option ℚ :=
  (json_num (obj_get fields "humidity")).orElse
    (fun _ => json_num (obj_get fields "humidity_pct"))

/-- The C function `process_json_line` (lines 189-265).  The argument `line` is the result of
jansson's `json_loads` on the raw input line: `none` models a parse failure.
A non-object value, or an object without a usable identifier, leaves the
registry unchanged.  Otherwise id and location are copied into 96-byte
buffers (truncation to 95 characters) and trimmed; an excluded (attic)
location leaves the registry unchanged, and anything else is upserted. -/
def process_json_line (now : Int) (line : Option Json) (devs : List Device) :
    List Device :=
  match line with
  | some (.jobj fields) =>
    match decode_id fields with
    | none => devs
    | some id0 =>
      let loc0 := decode_location fields
      let ts := decode_ts now fields
      let temp := decode_temp fields
      let rh := decode_rh fields
      let id := c_trim (c_take 95 id0)
      let loc := c_trim (c_take 95 loc0)
      if excluded_location loc then devs
      else registry_upsert devs id loc ts temp rh
  | _ => devs

/-- The per-frame queue drain of `main` (lines 477-482): process a batch of
parsed lines in arrival order. -/
def process_lines (now : Int) (lines : List (Option Json))
    (devs : List Device) : List Device :=
  lines.foldl (fun acc l => process_json_line now l acc) devs

/-- Freshness as used by `compute_averages` (line 277): a device is kept for
the aggregates iff its timestamp is not below the cutoff `now - W`. -/
def device_fresh (cutoff : Int) (d : Device) : Bool := decide (cutoff ≤ d.ts)

/-- The six outputs of `compute_averages` (lines 268-296): the four means are
`none` where the C code reports NAN (zero contributors). -/
structure Averages where
  in_t : Option ℚ
  in_h : Option ℚ
  g_t : Option ℚ
  g_h : Option ℚ
  in_n : Nat
  g_n : Nat
  deriving DecidableEq

/-- The running sums and counters of `compute_averages` (lines 272-273). -/
structure AvgAcc where
  sum_in_t : ℚ
  sum_in_h : ℚ
  nin_t : Nat
  nin_h : Nat
  cin : Nat
  sum_g_t : ℚ
  sum_g_h : ℚ
  ng_t : Nat
  ng_h : Nat
  cg : Nat
  deriving DecidableEq

/-- The zero-initialised accumulator of `compute_averages`. -/
def avg_init : AvgAcc := ⟨0, 0, 0, 0, 0, 0, 0, 0, 0, 0⟩

/-- One iteration of the `compute_averages` loop (lines 275-288): skip stale
devices; classify by `equals_ci(location, "garden")`; add present fields to
the matching sums and count a device that carries at least one field. -/
def avg_step (cutoff : Int) (acc : AvgAcc) (d : Device) : AvgAcc :=
  if d.ts < cutoff then acc
  else if equals_ci d.location "garden" then
    let a1 := if d.has_temp then
      { acc with sum_g_t := acc.sum_g_t + d.temp, ng_t := acc.ng_t + 1 } else acc
    let a2 := if d.has_rh then
      { a1 with sum_g_h := a1.sum_g_h + d.rh, ng_h := a1.ng_h + 1 } else a1
    if d.has_temp || d.has_rh then { a2 with cg := a2.cg + 1 } else a2
  else
    let a1 := if d.has_temp then
      { acc with sum_in_t := acc.sum_in_t + d.temp, nin_t := acc.nin_t + 1 } else acc
    let a2 := if d.has_rh then
      { a1 with sum_in_h := a1.sum_in_h + d.rh, nin_h := a1.nin_h + 1 } else a1
    if d.has_temp || d.has_rh then { a2 with cin := a2.cin + 1 } else a2

/-- The C function `compute_averages` (lines 268-296), with the cutoff `now - W` for the
freshness window `W` (the global `g_stale_secs`). -/
def compute_averages (now W : Int) (devs : List Device) : Averages :=
  let a := devs.foldl (avg_step (now - W)) avg_init
  { in_t := if a.nin_t = 0 then none else some (a.sum_in_t / a.nin_t)
    in_h := if a.nin_h = 0 then none else some (a.sum_in_h / a.nin_h)
    g_t := if a.ng_t = 0 then none else some (a.sum_g_t / a.ng_t)
    g_h := if a.ng_h = 0 then none else some (a.sum_g_h / a.ng_h)
    in_n := a.cin
    g_n := a.cg }

/-- The `qsort` comparator `cmp_rowref_by_id` (lines 335-340) as a total
boolean order: ascending by id, ties broken by location (`strcmp`; Lean's
lexicographic `String` order agrees with byte order on UTF-8). -/
def row_le (a b : Device) : Bool :=
  a.id < b.id || (a.id == b.id && a.location ≤ b.location)

/-- The row list built by `draw_table` (lines 381-388): all registry entries
whose location is not excluded, sorted by `cmp_rowref_by_id`. -/
def table_rows (devs : List Device) : List Device :=
  (devs.filter (fun d => !excluded_location d.location)).mergeSort row_le

/-- The per-row staleness flag of `draw_table` (line 401): a stale row is
rendered with the muted `A_DIM` attribute (line 421) but is still rendered. -/
def row_stale (now W : Int) (d : Device) : Bool := decide (d.ts < now - W)

/-- The C struct `LineQueue` (lines 95-102): a circular buffer of `cap`
slots with head and tail cursors.  A `none` slot models a NULL pointer. -/
structure LineQueue where
  buf : List (Option String)
  cap : Nat
  head : Nat
  tail : Nat
  deriving DecidableEq

/-- The C function `q_create` (lines 104-111): `cap` zeroed slots, both cursors at 0. -/
def q_create (cap : Nat) : LineQueue :=
  ⟨List.replicate cap none, cap, 0, 0⟩

/-- The C function `q_push` (lines 120-131): if advancing the tail would meet the head, free
the head slot and advance the head (drop-oldest); then store the line at the
tail and advance the tail.  Never blocks and never fails. -/
def q_push (q : LineQueue) (line : String) : LineQueue :=
  let next := (q.tail + 1) % q.cap
  if next = q.head then
    { q with buf := (q.buf.set q.head none).set q.tail (some line),
             head := (q.head + 1) % q.cap, tail := next }
  else
    { q with buf := q.buf.set q.tail (some line), tail := next }

/-- The C function `q_pop_nowait` (lines 132-142): nothing when head meets tail, else the
line at the head slot, which is cleared, with the head advanced. -/
def q_pop_nowait (q : LineQueue) : Option String × LineQueue :=
  if q.head = q.tail then (none, q)
  else (q.buf.getD q.head none,
    { q with buf := q.buf.set q.head none, head := (q.head + 1) % q.cap })

/-- A sequence of pushes in order (the producer side of the queue). -/
def q_push_all (q : LineQueue) (lines : List String) : LineQueue :=
  lines.foldl q_push q

/-- The consumer-side drain loop of `main` (lines 477-482): pop until the
queue reports empty (fuel-bounded; any fuel at least the queue size drains
everything). -/
def q_drain : Nat → LineQueue → List String
  | 0, _ => []
  | fuel + 1, q =>
    match q_pop_nowait q with
    | (some s, q1) => s :: q_drain fuel q1
    | (none, _) => []

/-- The last `n` elements of a list (helper for the queue analysis). -/
def lastN {α : Type _} (n : Nat) (xs : List α) : List α :=
  xs.drop (xs.length - n)

/-- The representation invariant of the circular buffer: capacity `C`, both
cursors in range, `C` slots, and the retained lines `xs` stored contiguously
(mod `C`) from the head cursor, with `xs.length = (tail - head) mod C`. -/
def QueueInv (C : Nat) (q : LineQueue) (xs : List String) : Prop :=
  q.cap = C ∧ 0 < C ∧ q.head < C ∧ q.tail < C ∧ q.buf.length = C ∧
  xs.length = (q.tail + C - q.head) % C ∧
  ∀ i, i < xs.length → q.buf[(q.head + i) % C]? = some (xs[i]?)

/-- The C helper `is_finite` (line 44) read over the reals:
`!(x!=x) && x>-1e300 && x<1e300` (a real is never NaN). -/
def is_finite (x : ℝ) : Prop := -(10 : ℝ) ^ 300 < x ∧ x < (10 : ℝ) ^ 300

/-- The Magnus-Tetens exponent `gamma` of `dewpoint_c` (line 74):
`log(rh/100) + (17.62 * t) / (243.12 + t)`. -/
noncomputable def dew_gamma (t r : ℝ) : ℝ :=
  Real.log (r / 100) + (17.62 * t) / (243.12 + t)

open Classical in
/-- The C function `dewpoint_c` (lines 70-76): NAN (here `none`) when either input fails the
`is_finite` check, or the humidity is not in (0, 100]; otherwise
`(243.12 * gamma) / (17.62 - gamma)`. -/
noncomputable def dewpoint_c (t r : ℝ) : Option ℝ :=
  if ¬ is_finite t ∨ ¬ is_finite r ∨ r ≤ 0 ∨ 100 < r then none
  else some ((243.12 * dew_gamma t r) / (17.62 - dew_gamma t r))

theorem scroll_step_nonneg (s : Int) (c : ScrollCmd) (hs : 0 ≤ s) :
    0 ≤ scroll_step s c := by
  cases c <;> simp only [scroll_step, imax] <;> omega

theorem scroll_foldl_nonneg (cmds : List ScrollCmd) (s : Int) (hs : 0 ≤ s) :
    0 ≤ List.foldl scroll_step s cmds := by
  induction cmds generalizing s with
  | nil => simpa using hs
  | cons c cs ih => exact ih _ (scroll_step_nonneg s c hs)

theorem c_digit_char_facts (c : Char) (h : c_isdigit c = true) :
    c_isspace c = false ∧ c ≠ '-' ∧ c ≠ '+' := by
  refine ⟨?_, ?_, ?_⟩
  · by_contra hsp
    rw [Bool.not_eq_false] at hsp
    simp only [c_isspace, Bool.or_eq_true, beq_iff_eq] at hsp
    rcases hsp with ((((h1 | h1) | h1) | h1) | h1) | h1 <;> subst h1 <;>
      exact absurd h (by decide)
  · intro h1; subst h1; exact absurd h (by decide)
  · intro h1; subst h1; exact absurd h (by decide)

theorem atoi_eq_of_digits (s : String) (hne : spec_digits s ≠ [])
    (hdig : (spec_digits s).all c_isdigit = true) :
    atoi s = atoi_loop (spec_digits s) 0 := by
  cases hd : s.data with
  | nil =>
    exfalso; apply hne; unfold spec_digits; rw [hd]
  | cons c rest =>
    have hsd : spec_digits s = if c = '+' then rest else c :: rest := by
      unfold spec_digits; rw [hd]
    by_cases hplus : c = '+'
    · subst hplus
      rw [hsd, if_pos rfl] at hne hdig ⊢
      cases rest with
      | nil => exact absurd rfl hne
      | cons c1 rest1 =>
        unfold atoi
        rw [hd, List.dropWhile_cons]
        rw [show c_isspace '+' = false from by decide]
        simp only [Bool.false_eq_true, if_false]
        simp
    · rw [hsd, if_neg hplus] at hne hdig ⊢
      have hdc : c_isdigit c = true := by
        have := List.all_eq_true.mp hdig c (by simp)
        simpa using this
      obtain ⟨hsp, hm, hp⟩ := c_digit_char_facts c hdc
      unfold atoi
      rw [hd, List.dropWhile_cons, hsp]
      simp only [Bool.false_eq_true, if_false]
      rw [if_neg hm, if_neg hp]

theorem atoi_of_strict (s : String) (v : Int) (h : spec_pos_int_value s = some v) :
    atoi s = v := by
  unfold spec_pos_int_value at h
  by_cases hcond : spec_digits s ≠ [] ∧ (spec_digits s).all c_isdigit = true
  · rw [if_pos (by simpa using hcond)] at h
    injection h with h
    rw [atoi_eq_of_digits s hcond.1 hcond.2]
    exact h
  · rw [if_neg (by simpa using hcond)] at h
    exact Option.noConfusion h

/-- C8 (corrected): the configured window is taken iff C `atoi` of the value
(a leading-prefix parse that ignores trailing garbage) lands strictly between
0 and 86400.  A value that is strictly a decimal numeral behaves exactly as
the spec says; an absent value yields 900; and the active window is always
either 900 or the atoi value of the setting in (0, 86400). -/
theorem C8_stale_secs_amended (e : Option String) :
    (e = none → stale_secs_of_env e = 900) ∧
    (∀ s v, e = some s → spec_pos_int_value s = some v →
      stale_secs_of_env e = if 0 < v ∧ v < 86400 then v else 900) ∧
    (stale_secs_of_env e = 900 ∨
      (0 < stale_secs_of_env e ∧ stale_secs_of_env e < 86400 ∧
        e.map atoi = some (stale_secs_of_env e))) := by
  refine ⟨?_, ?_, ?_⟩
  · intro he; rw [he]; rfl
  · intro s v he hv
    subst he
    have hs : s ≠ "" := by
      intro hnil
      subst hnil
      rw [show spec_pos_int_value "" = none from rfl] at hv
      exact Option.noConfusion hv
    have hsE : s.isEmpty = false := by
      rw [Bool.eq_false_iff]
      intro habs
      exact hs ((String.isEmpty_iff s).mp habs)
    have ha : atoi s = v := atoi_of_strict s v hv
    simp only [stale_secs_of_env, hsE, Bool.false_eq_true, if_false, ha]
  · cases e with
    | none => exact Or.inl rfl
    | some s =>
      simp only [stale_secs_of_env, Option.map_some]
      by_cases hsE : s.isEmpty
      · rw [if_pos hsE]; exact Or.inl rfl
      · rw [if_neg hsE]
        by_cases hc : 0 < atoi s ∧ atoi s < 86400
        · rw [if_pos hc]; exact Or.inr ⟨hc.1, hc.2, rfl⟩
        · rw [if_neg hc]; exact Or.inl rfl

/-- C8 witness: the strictly numeric value "42" configures a window of 42. -/
theorem C8_stale_secs_witness : stale_secs_of_env (some "42") = 42 := by
  have h := (C8_stale_secs_amended (some "42")).2.1 "42" 42 rfl (by decide)
  simpa using h

/-- C8 counterexample: "42abc" is not a positive-integer numeral, yet the code
configures a window of 42 (C `atoi` stops at the first non-digit), not the
default 900 that the claim requires for non-numeric values. -/
theorem C8_stale_secs_counterexample :
    spec_pos_int_value "42abc" = none ∧
    stale_secs_of_env (some "42abc") = 42 ∧
    stale_secs_of_env (some "42abc") ≠ 900 := by
  refine ⟨by decide, by decide, by decide⟩

/-- C1 (corrected): every scroll state reachable by scroll commands is
non-negative, and the effective start row recomputed by `draw_table` each
frame is clamped into `[0, max 0 (total_rows - visible_rows)]`; the stored
scroll offset itself is not clamped from above. -/
theorem C1_scroll_clamp_amended (cmds : List ScrollCmd) (scroll rc max_rows : Int) :
    0 ≤ scroll_run cmds ∧
    0 ≤ clamp_start scroll rc max_rows ∧
    clamp_start scroll rc max_rows ≤ imax 0 (rc - max_rows) := by
  refine ⟨scroll_foldl_nonneg cmds 0 le_rfl, ?_, ?_⟩ <;>
    simp only [clamp_start, imax] <;> omega

/-- C1 counterexample: with no table rows (`total_rows = 0`) and a viewport of
10 rows, a single scroll-down command drives the stored scroll offset to 1,
outside `[0, max 0 (0 - 10)] = [0, 0]`: scroll-down never applies the upper
clamp. -/
theorem C1_scroll_clamp_counterexample :
    ¬ (scroll_run [ScrollCmd.down1] ≤ imax 0 ((0 : Int) - 10)) := by decide

/-- C10 (code bug): the displayed age is `imax(0, now - ts)` with both
arguments converted to 32-bit `int`, so for `now = 1760000000` and a stored
timestamp of `-1000000000` the true age 2760000000 wraps to a negative int
and the code displays age 0, although `age` is declared `long long` and
printed with `%lld`, which only makes sense for un-truncated ages. -/
theorem C10_age_truncation_bug :
    age_of 1760000000 (-1000000000) = 0 ∧
    imax 0 ((1760000000 : Int) - (-1000000000)) = 2760000000 := by
  refine ⟨by decide, by decide⟩

/-- C9 (confirmed): a line that fails to parse, a line whose JSON value is not
an object, and an object carrying neither an "id" string nor a "device_id"
string all leave the registry exactly unchanged. -/
theorem C9_malformed_line_discarded (now : Int) (devs : List Device) :
    process_json_line now none devs = devs ∧
    (∀ j : Json, (∀ fields, j ≠ .jobj fields) →
      process_json_line now (some j) devs = devs) ∧
    (∀ fields, json_str (obj_get fields "id") = none →
      json_str (obj_get fields "device_id") = none →
      process_json_line now (some (.jobj fields)) devs = devs) := by
  refine ⟨rfl, ?_, ?_⟩
  · intro j hj
    cases j <;> first | rfl | exact absurd rfl (hj _)
  · intro fields h1 h2
    simp only [process_json_line, decode_id, h1, h2, Option.orElse]

/-- C3 (confirmed): an upsert into an existing (id, location) entry always
overwrites the timestamp (even with a chronologically older one, since no
comparison is made), overwrites temperature and humidity exactly when the
incoming reading carries them, and keeps the key; and the spec's merge
example, run through the full decoder, yields a single entry with both
fields. -/
theorem C3_upsert_merge :
    (∀ (devs : List Device) (id loc : String) (ts : Int) (temp rh : Option ℚ)
      (i : Nat) (d0 : Device),
      excluded_location loc = false →
      find_device devs id loc = some i →
      devs[i]? = some d0 →
      (registry_upsert devs id loc ts temp rh)[i]? =
        some (update_device d0 ts temp rh) ∧
      (update_device d0 ts temp rh).ts = ts ∧
      (update_device d0 ts temp rh).temp = temp.getD d0.temp ∧
      (update_device d0 ts temp rh).has_temp = (d0.has_temp || temp.isSome) ∧
      (update_device d0 ts temp rh).rh = rh.getD d0.rh ∧
      (update_device d0 ts temp rh).has_rh = (d0.has_rh || rh.isSome) ∧
      (update_device d0 ts temp rh).id = d0.id ∧
      (update_device d0 ts temp rh).location = d0.location) ∧
    process_json_line 7
      (some (.jobj [("id", .jstr "X"), ("location", .jstr "Y"),
        ("humidity", .jint 55)]))
      (process_json_line 5
        (some (.jobj [("id", .jstr "X"), ("location", .jstr "Y"),
          ("temp", .jint 20)])) [])
      = [⟨"X", "Y", 7, 20, true, 55, true⟩] := by
  constructor
  · intro devs id loc ts temp rh i d0 _hexc hfind hget
    refine ⟨?_, rfl, rfl, rfl, rfl, rfl, rfl, rfl⟩
    have hlt : i < devs.length := by
      by_contra hge
      rw [List.getElem?_eq_none (by omega)] at hget
      exact Option.noConfusion hget
    simp only [registry_upsert, hfind, hget]
    exact List.getElem?_set_self hlt
  · decide

/-- C3 witness: a concrete merge into an existing entry, all hypotheses
discharged at `devs = [{X, Y, ts=5, temp=20}]`, incoming humidity 55. -/
theorem C3_upsert_merge_witness :
    (registry_upsert [⟨"X", "Y", 5, 20, true, 0, false⟩] "X" "Y" 7 none
      (some 55))[0]? =
      some (update_device ⟨"X", "Y", 5, 20, true, 0, false⟩ 7 none (some 55)) :=
  (C3_upsert_merge.1 [⟨"X", "Y", 5, 20, true, 0, false⟩] "X" "Y" 7 none
    (some 55) 0 ⟨"X", "Y", 5, 20, true, 0, false⟩ (by decide) (by decide)
    (by decide)).1

theorem registry_upsert_no_excluded (devs : List Device) (id loc : String)
    (ts : Int) (temp rh : Option ℚ)
    (hdevs : ∀ d ∈ devs, excluded_location d.location = false)
    (hloc : excluded_location loc = false) :
    ∀ d ∈ registry_upsert devs id loc ts temp rh,
      excluded_location d.location = false := by
  intro d hd
  unfold registry_upsert at hd
  split at hd
  case h_1 i hfind =>
    cases hget : devs[i]? with
    | none => rw [hget] at hd; exact hdevs d hd
    | some d0 =>
      rw [hget] at hd
      rcases List.mem_or_eq_of_mem_set hd with hmem | heq
      · exact hdevs d hmem
      · subst heq
        have : (update_device d0 ts temp rh).location = d0.location := rfl
        rw [this]
        exact hdevs d0 (List.getElem?_mem hget)
  case h_2 hfind =>
    split at hd
    · rcases List.mem_append.mp hd with hmem | hnew
      · exact hdevs d hmem
      · have : d = update_device (blank_device id loc) ts temp rh := by
          simpa using hnew
        subst this
        exact hloc
    · exact hdevs d hd

theorem process_json_line_no_excluded (now : Int) (line : Option Json)
    (devs : List Device)
    (hdevs : ∀ d ∈ devs, excluded_location d.location = false) :
    ∀ d ∈ process_json_line now line devs,
      excluded_location d.location = false := by
  intro d hd
  cases line with
  | none => exact hdevs d hd
  | some j =>
    cases j with
    | jobj fields =>
      simp only [process_json_line] at hd
      cases hid : decode_id fields with
      | none => rw [hid] at hd; exact hdevs d hd
      | some id0 =>
        rw [hid] at hd
        simp only at hd
        by_cases hexc :
            excluded_location (c_trim (c_take 95 (decode_location fields))) = true
        · rw [if_pos hexc] at hd; exact hdevs d hd
        · rw [if_neg hexc] at hd
          exact registry_upsert_no_excluded devs _ _ _ _ _ hdevs
            (Bool.not_eq_true _ ▸ hexc) d hd
    | jnull => exact hdevs d hd
    | jbool b => exact hdevs d hd
    | jint n => exact hdevs d hd
    | jreal q => exact hdevs d hd
    | jstr s => exact hdevs d hd
    | jarr xs => exact hdevs d hd

theorem process_lines_no_excluded (now : Int) (lines : List (Option Json))
    (devs : List Device)
    (hdevs : ∀ d ∈ devs, excluded_location d.location = false) :
    ∀ d ∈ process_lines now lines devs,
      excluded_location d.location = false := by
  induction lines generalizing devs with
  | nil => exact hdevs
  | cons l ls ih =>
    exact ih (process_json_line now l devs)
      (process_json_line_no_excluded now l devs hdevs)

/-- C4 (confirmed): a line whose decoded location (after the decoder's
truncation and trimming) case-insensitively equals "attic" never creates or
updates any entry; the registry built from any input stream never contains an
entry with such a location; and neither does the rendered row list. -/
theorem C4_attic_exclusion :
    (∀ (now : Int) (fields : List (String × Json)) (devs : List Device),
      excluded_location (c_trim (c_take 95 (decode_location fields))) = true →
      process_json_line now (some (.jobj fields)) devs = devs) ∧
    (∀ (now : Int) (lines : List (Option Json)) (d : Device),
      d ∈ process_lines now lines [] →
      excluded_location d.location = false) ∧
    (∀ (devs : List Device) (d : Device), d ∈ table_rows devs →
      excluded_location d.location = false) := by
  refine ⟨?_, ?_, ?_⟩
  · intro now fields devs hexc
    simp only [process_json_line]
    cases hid : decode_id fields with
    | none => rfl
    | some id0 => simp only [hexc, if_true]
  · intro now lines d hd
    exact process_lines_no_excluded now lines [] (by intro d hd; cases hd) d hd
  · intro devs d hd
    have hmem := List.mem_mergeSort.mp hd
    have hf := (List.mem_filter.mp hmem).2
    simpa using hf

/-- C4 witness: a concrete attic line is dropped; a concrete non-attic line
yields an entry with a non-excluded location; a concrete registry's row list
contains only non-excluded locations. -/
theorem C4_attic_exclusion_witness :
    process_json_line 0
      (some (.jobj [("id", .jstr "A"), ("location", .jstr " ATTIC ")])) [] = [] ∧
    excluded_location
      (Device.location ⟨"A", "Lounge", 0, 0, false, 0, false⟩) = false ∧
    excluded_location
      (Device.location ⟨"B", "garden", 1, 2, true, 3, true⟩) = false :=
  ⟨C4_attic_exclusion.1 0 _ [] (by decide),
   C4_attic_exclusion.2.1 0
     [some (.jobj [("id", .jstr "A"), ("location", .jstr "Lounge")])] _ (by decide),
   C4_attic_exclusion.2.2 [⟨"B", "garden", 1, 2, true, 3, true⟩] _
     (List.mem_mergeSort.mpr (by decide))⟩

theorem avg_step_fields (cutoff : Int) (acc : AvgAcc) (d : Device) :
    (avg_step cutoff acc d).ng_t = acc.ng_t +
      (if device_fresh cutoff d && equals_ci d.location "garden" && d.has_temp
        then 1 else 0) ∧
    (avg_step cutoff acc d).sum_g_t = acc.sum_g_t +
      (if device_fresh cutoff d && equals_ci d.location "garden" && d.has_temp
        then d.temp else 0) ∧
    (avg_step cutoff acc d).ng_h = acc.ng_h +
      (if device_fresh cutoff d && equals_ci d.location "garden" && d.has_rh
        then 1 else 0) ∧
    (avg_step cutoff acc d).sum_g_h = acc.sum_g_h +
      (if device_fresh cutoff d && equals_ci d.location "garden" && d.has_rh
        then d.rh else 0) ∧
    (avg_step cutoff acc d).cg = acc.cg +
      (if device_fresh cutoff d && equals_ci d.location "garden" &&
          (d.has_temp || d.has_rh) then 1 else 0) ∧
    (avg_step cutoff acc d).nin_t = acc.nin_t +
      (if device_fresh cutoff d && !equals_ci d.location "garden" && d.has_temp
        then 1 else 0) ∧
    (avg_step cutoff acc d).sum_in_t = acc.sum_in_t +
      (if device_fresh cutoff d && !equals_ci d.location "garden" && d.has_temp
        then d.temp else 0) ∧
    (avg_step cutoff acc d).nin_h = acc.nin_h +
      (if device_fresh cutoff d && !equals_ci d.location "garden" && d.has_rh
        then 1 else 0) ∧
    (avg_step cutoff acc d).sum_in_h = acc.sum_in_h +
      (if device_fresh cutoff d && !equals_ci d.location "garden" && d.has_rh
        then d.rh else 0) ∧
    (avg_step cutoff acc d).cin = acc.cin +
      (if device_fresh cutoff d && !equals_ci d.location "garden" &&
          (d.has_temp || d.has_rh) then 1 else 0) := by
  by_cases hf : d.ts < cutoff
  · have hfresh : device_fresh cutoff d = false := by
      simp only [device_fresh, decide_eq_false_iff_not]; omega
    simp [avg_step, hf, hfresh]
  · have hfresh : device_fresh cutoff d = true := by
      simp only [device_fresh, decide_eq_true_eq]; omega
    by_cases hg : equals_ci d.location "garden" = true <;>
      cases ht : d.has_temp <;> cases hr : d.has_rh <;>
        simp [avg_step, hf, hfresh, ht, hr, hg] <;>
          simp_all <;> omega

theorem avg_foldl_spec (cutoff : Int) (devs : List Device) (acc : AvgAcc) :
    (devs.foldl (avg_step cutoff) acc).ng_t = acc.ng_t +
      (devs.filter (fun d =>
        device_fresh cutoff d && equals_ci d.location "garden" &&
          d.has_temp)).length ∧
    (devs.foldl (avg_step cutoff) acc).sum_g_t = acc.sum_g_t +
      ((devs.filter (fun d =>
        device_fresh cutoff d && equals_ci d.location "garden" &&
          d.has_temp)).map Device.temp).sum ∧
    (devs.foldl (avg_step cutoff) acc).ng_h = acc.ng_h +
      (devs.filter (fun d =>
        device_fresh cutoff d && equals_ci d.location "garden" &&
          d.has_rh)).length ∧
    (devs.foldl (avg_step cutoff) acc).sum_g_h = acc.sum_g_h +
      ((devs.filter (fun d =>
        device_fresh cutoff d && equals_ci d.location "garden" &&
          d.has_rh)).map Device.rh).sum ∧
    (devs.foldl (avg_step cutoff) acc).cg = acc.cg +
      (devs.filter (fun d =>
        device_fresh cutoff d && equals_ci d.location "garden" &&
          (d.has_temp || d.has_rh))).length ∧
    (devs.foldl (avg_step cutoff) acc).nin_t = acc.nin_t +
      (devs.filter (fun d =>
        device_fresh cutoff d && !equals_ci d.location "garden" &&
          d.has_temp)).length ∧
    (devs.foldl (avg_step cutoff) acc).sum_in_t = acc.sum_in_t +
      ((devs.filter (fun d =>
        device_fresh cutoff d && !equals_ci d.location "garden" &&
          d.has_temp)).map Device.temp).sum ∧
    (devs.foldl (avg_step cutoff) acc).nin_h = acc.nin_h +
      (devs.filter (fun d =>
        device_fresh cutoff d && !equals_ci d.location "garden" &&
          d.has_rh)).length ∧
    (devs.foldl (avg_step cutoff) acc).sum_in_h = acc.sum_in_h +
      ((devs.filter (fun d =>
        device_fresh cutoff d && !equals_ci d.location "garden" &&
          d.has_rh)).map Device.rh).sum ∧
    (devs.foldl (avg_step cutoff) acc).cin = acc.cin +
      (devs.filter (fun d =>
        device_fresh cutoff d && !equals_ci d.location "garden" &&
          (d.has_temp || d.has_rh))).length := by
  induction devs generalizing acc with
  | nil => simp
  | cons d ds ih =>
    rw [List.foldl_cons]
    obtain ⟨s1, s2, s3, s4, s5, s6, s7, s8, s9, s10⟩ :=
      avg_step_fields cutoff acc d
    obtain ⟨i1, i2, i3, i4, i5, i6, i7, i8, i9, i10⟩ :=
      ih (avg_step cutoff acc d)
    refine ⟨?_, ?_, ?_, ?_, ?_, ?_, ?_, ?_, ?_, ?_⟩
    · rw [i1, s1]; simp only [List.filter_cons]; split <;> simp <;> omega
    · rw [i2, s2]; simp only [List.filter_cons]; split <;> simp <;> ring
    · rw [i3, s3]; simp only [List.filter_cons]; split <;> simp <;> omega
    · rw [i4, s4]; simp only [List.filter_cons]; split <;> simp <;> ring
    · rw [i5, s5]; simp only [List.filter_cons]; split <;> simp <;> omega
    · rw [i6, s6]; simp only [List.filter_cons]; split <;> simp <;> omega
    · rw [i7, s7]; simp only [List.filter_cons]; split <;> simp <;> ring
    · rw [i8, s8]; simp only [List.filter_cons]; split <;> simp <;> omega
    · rw [i9, s9]; simp only [List.filter_cons]; split <;> simp <;> ring
    · rw [i10, s10]; simp only [List.filter_cons]; split <;> simp <;> omega

theorem avg_foldl_filter (cutoff : Int) (devs : List Device) (acc : AvgAcc) :
    devs.foldl (avg_step cutoff) acc
      = (devs.filter (device_fresh cutoff)).foldl (avg_step cutoff) acc := by
  induction devs generalizing acc with
  | nil => rfl
  | cons d ds ih =>
    by_cases hf : device_fresh cutoff d = true
    · rw [List.foldl_cons, List.filter_cons, if_pos hf, List.foldl_cons, ih]
    · have hskip : avg_step cutoff acc d = acc := by
        unfold avg_step
        rw [if_pos ?hc]
        case hc =>
          simp only [device_fresh, decide_eq_true_eq] at hf
          omega
      rw [List.foldl_cons, List.filter_cons, if_neg hf, hskip, ih]

/-- C5 (confirmed): stale entries (timestamp below `now - W`) contribute
nothing to the aggregates — filtering them away leaves every aggregate output
unchanged — while every non-excluded entry, stale or not, appears among the
table rows, with the muted (`A_DIM`) flag set exactly when the entry is not
fresh; with `W = 900`, a device of age 899 is counted by the aggregates and a
device of age 901 is not, yet the age-901 device is still a table row,
rendered muted. -/
theorem C5_freshness_window (now W : Int) (devs : List Device) :
    compute_averages now W devs
      = compute_averages now W (devs.filter (device_fresh (now - W))) ∧
    (∀ d ∈ devs, excluded_location d.location = false →
      d ∈ table_rows devs ∧ row_stale now W d = !device_fresh (now - W) d) ∧
    (compute_averages now 900
      [⟨"A", "room", now - 899, 20, true, 50, true⟩]).in_n = 1 ∧
    (compute_averages now 900
      [⟨"A", "room", now - 901, 20, true, 50, true⟩]).in_n = 0 ∧
    (⟨"A", "room", now - 901, 20, true, 50, true⟩ : Device)
      ∈ table_rows [⟨"A", "room", now - 901, 20, true, 50, true⟩] ∧
    row_stale now 900 (⟨"A", "room", now - 901, 20, true, 50, true⟩ : Device)
      = true := by
  refine ⟨?_, ?_, ?_, ?_, ?_, ?_⟩
  · simp only [compute_averages]
    rw [avg_foldl_filter (now - W) devs avg_init]
  · intro d hd hexc
    constructor
    · exact List.mem_mergeSort.mpr
        (List.mem_filter.mpr ⟨hd, by simp [hexc]⟩)
    · rcases lt_or_le d.ts (now - W) with hst | hst
      · rw [show row_stale now W d = true from by
            simp only [row_stale, decide_eq_true_eq]; omega,
          show device_fresh (now - W) d = false from by
            simp only [device_fresh, decide_eq_false_iff_not]; omega]
        rfl
      · rw [show row_stale now W d = false from by
            simp only [row_stale, decide_eq_false_iff_not]; omega,
          show device_fresh (now - W) d = true from by
            simp only [device_fresh, decide_eq_true_eq]; omega]
        rfl
  · have hstep : avg_step (now - 900) avg_init
        ⟨"A", "room", now - 899, 20, true, 50, true⟩
        = ⟨20, 50, 1, 1, 1, 0, 0, 0, 0, 0⟩ := by
      unfold avg_step
      rw [if_neg (show ¬((now : Int) - 899 < now - 900) from by omega)]
      rw [show equals_ci "room" "garden" = false from by decide]
      simp [avg_init]
    simp only [compute_averages, List.foldl_cons, List.foldl_nil, hstep]
  · have hstep : avg_step (now - 900) avg_init
        ⟨"A", "room", now - 901, 20, true, 50, true⟩ = avg_init := by
      unfold avg_step
      rw [if_pos (show (now : Int) - 901 < now - 900 from by omega)]
    simp only [compute_averages, List.foldl_cons, List.foldl_nil, hstep]
    rfl
  · exact List.mem_mergeSort.mpr (List.mem_filter.mpr ⟨by simp, rfl⟩)
  · simp only [row_stale, decide_eq_true_eq]
    omega

/-- C5 witness: the freshness behaviour instantiated at a concrete device of
age 899 inside a one-entry registry at `now = 1000000`, `W = 900`. -/
theorem C5_freshness_window_witness :
    (⟨"A", "room", 999101, 20, true, 50, true⟩ : Device)
      ∈ table_rows [⟨"A", "room", 999101, 20, true, 50, true⟩] ∧
    row_stale 1000000 900 (⟨"A", "room", 999101, 20, true, 50, true⟩ : Device)
      = !device_fresh (1000000 - 900)
          (⟨"A", "room", 999101, 20, true, 50, true⟩ : Device) :=
  (C5_freshness_window 1000000 900
    [⟨"A", "room", 999101, 20, true, 50, true⟩]).2.1
    ⟨"A", "room", 999101, 20, true, 50, true⟩ (by simp) (by decide)

/-- C7 (confirmed): per class the mean temperature is taken over exactly the
fresh devices with a present temperature and the mean humidity independently
over exactly the fresh devices with a present humidity (Garden: location
case-insensitively "garden"; Indoor: every other non-excluded location); a
mean with no contributors is `none`, never zero; the per-class device count
counts fresh devices carrying at least one of the two fields; and a class
with one temperature-only and one humidity-only device reports both means,
each from a single contributor. -/
theorem C7_class_aggregates (now W : Int) (devs : List Device)
    (hdevs : ∀ d ∈ devs, excluded_location d.location = false) :
    ((compute_averages now W devs).g_t =
      if devs.filter (fun d => device_fresh (now - W) d &&
            equals_ci d.location "garden" && d.has_temp) = [] then none
      else some (((devs.filter (fun d => device_fresh (now - W) d &&
            equals_ci d.location "garden" && d.has_temp)).map Device.temp).sum /
          ((devs.filter (fun d => device_fresh (now - W) d &&
            equals_ci d.location "garden" && d.has_temp)).length : ℚ))) ∧
    ((compute_averages now W devs).g_h =
      if devs.filter (fun d => device_fresh (now - W) d &&
            equals_ci d.location "garden" && d.has_rh) = [] then none
      else some (((devs.filter (fun d => device_fresh (now - W) d &&
            equals_ci d.location "garden" && d.has_rh)).map Device.rh).sum /
          ((devs.filter (fun d => device_fresh (now - W) d &&
            equals_ci d.location "garden" && d.has_rh)).length : ℚ))) ∧
    ((compute_averages now W devs).in_t =
      if devs.filter (fun d => device_fresh (now - W) d &&
            !equals_ci d.location "garden" &&
            !excluded_location d.location && d.has_temp) = [] then none
      else some (((devs.filter (fun d => device_fresh (now - W) d &&
            !equals_ci d.location "garden" &&
            !excluded_location d.location && d.has_temp)).map
              Device.temp).sum /
          ((devs.filter (fun d => device_fresh (now - W) d &&
            !equals_ci d.location "garden" &&
            !excluded_location d.location && d.has_temp)).length : ℚ))) ∧
    ((compute_averages now W devs).in_h =
      if devs.filter (fun d => device_fresh (now - W) d &&
            !equals_ci d.location "garden" &&
            !excluded_location d.location && d.has_rh) = [] then none
      else some (((devs.filter (fun d => device_fresh (now - W) d &&
            !equals_ci d.location "garden" &&
            !excluded_location d.location && d.has_rh)).map Device.rh).sum /
          ((devs.filter (fun d => device_fresh (now - W) d &&
            !equals_ci d.location "garden" &&
            !excluded_location d.location && d.has_rh)).length : ℚ))) ∧
    ((compute_averages now W devs).g_n =
      (devs.filter (fun d => device_fresh (now - W) d &&
        equals_ci d.location "garden" && (d.has_temp || d.has_rh))).length) ∧
    ((compute_averages now W devs).in_n =
      (devs.filter (fun d => device_fresh (now - W) d &&
        !equals_ci d.location "garden" && !excluded_location d.location &&
        (d.has_temp || d.has_rh))).length) ∧
    (compute_averages now 900
      [⟨"T", "garden", now, 20, true, 0, false⟩,
       ⟨"H", "garden", now, 0, false, 55, true⟩]).g_t = some 20 ∧
    (compute_averages now 900
      [⟨"T", "garden", now, 20, true, 0, false⟩,
       ⟨"H", "garden", now, 0, false, 55, true⟩]).g_h = some 55 ∧
    (compute_averages now 900
      [⟨"T", "garden", now, 20, true, 0, false⟩,
       ⟨"H", "garden", now, 0, false, 55, true⟩]).g_n = 2 := by
  obtain ⟨g1, g2, g3, g4, g5, g6, g7, g8, g9, g10⟩ :=
    avg_foldl_spec (now - W) devs avg_init
  have hcongr : ∀ p : Device → Bool,
      devs.filter (fun d => p d && !excluded_location d.location && d.has_temp)
        = devs.filter (fun d => p d && d.has_temp) :=
    fun p => List.filter_congr (fun x hx => by simp [hdevs x hx])
  have hcongr2 : ∀ p : Device → Bool,
      devs.filter (fun d => p d && !excluded_location d.location && d.has_rh)
        = devs.filter (fun d => p d && d.has_rh) :=
    fun p => List.filter_congr (fun x hx => by simp [hdevs x hx])
  have hcongr3 : ∀ p : Device → Bool,
      devs.filter (fun d => p d && !excluded_location d.location &&
          (d.has_temp || d.has_rh))
        = devs.filter (fun d => p d && (d.has_temp || d.has_rh)) :=
    fun p => List.filter_congr (fun x hx => by simp [hdevs x hx])
  have hstep1 : avg_step (now - 900) avg_init
      ⟨"T", "garden", now, 20, true, 0, false⟩
      = ⟨0, 0, 0, 0, 0, 20, 0, 1, 0, 1⟩ := by
    unfold avg_step
    rw [if_neg (show ¬((now : Int) < now - 900) from by omega)]
    rw [show equals_ci "garden" "garden" = true from by decide]
    simp [avg_init]
  have hstep2 : avg_step (now - 900) ⟨0, 0, 0, 0, 0, 20, 0, 1, 0, 1⟩
      ⟨"H", "garden", now, 0, false, 55, true⟩
      = ⟨0, 0, 0, 0, 0, 20, 55, 1, 1, 2⟩ := by
    unfold avg_step
    rw [if_neg (show ¬((now : Int) < now - 900) from by omega)]
    rw [show equals_ci "garden" "garden" = true from by decide]
    simp
  refine ⟨?_, ?_, ?_, ?_, ?_, ?_, ?_, ?_, ?_⟩
  · simp only [compute_averages]
    rw [g1, g2]
    simp only [avg_init, Nat.zero_add, zero_add]
    by_cases hE : devs.filter (fun d => device_fresh (now - W) d &&
        equals_ci d.location "garden" && d.has_temp) = []
    · simp [hE]
    · have hne : (devs.filter (fun d => device_fresh (now - W) d &&
          equals_ci d.location "garden" && d.has_temp)).length ≠ 0 := by
        simpa [List.length_eq_zero] using hE
      simp [hE, hne]
  · simp only [compute_averages]
    rw [g3, g4]
    simp only [avg_init, Nat.zero_add, zero_add]
    by_cases hE : devs.filter (fun d => device_fresh (now - W) d &&
        equals_ci d.location "garden" && d.has_rh) = []
    · simp [hE]
    · have hne : (devs.filter (fun d => device_fresh (now - W) d &&
          equals_ci d.location "garden" && d.has_rh)).length ≠ 0 := by
        simpa [List.length_eq_zero] using hE
      simp [hE, hne]
  · rw [hcongr (fun d => device_fresh (now - W) d &&
      !equals_ci d.location "garden")]
    simp only [compute_averages]
    rw [g6, g7]
    simp only [avg_init, Nat.zero_add, zero_add]
    by_cases hE : devs.filter (fun d => device_fresh (now - W) d &&
        !equals_ci d.location "garden" && d.has_temp) = []
    · simp [hE]
    · have hne : (devs.filter (fun d => device_fresh (now - W) d &&
          !equals_ci d.location "garden" && d.has_temp)).length ≠ 0 := by
        simpa [List.length_eq_zero] using hE
      simp [hE, hne]
  · rw [hcongr2 (fun d => device_fresh (now - W) d &&
      !equals_ci d.location "garden")]
    simp only [compute_averages]
    rw [g8, g9]
    simp only [avg_init, Nat.zero_add, zero_add]
    by_cases hE : devs.filter (fun d => device_fresh (now - W) d &&
        !equals_ci d.location "garden" && d.has_rh) = []
    · simp [hE]
    · have hne : (devs.filter (fun d => device_fresh (now - W) d &&
          !equals_ci d.location "garden" && d.has_rh)).length ≠ 0 := by
        simpa [List.length_eq_zero] using hE
      simp [hE, hne]
  · simp only [compute_averages]
    rw [g5]
    simp only [avg_init, Nat.zero_add, zero_add]
  · rw [hcongr3 (fun d => device_fresh (now - W) d &&
      !equals_ci d.location "garden")]
    simp only [compute_averages]
    rw [g10]
    simp only [avg_init, Nat.zero_add, zero_add]
  · simp only [compute_averages, List.foldl_cons, List.foldl_nil,
      hstep1, hstep2]
    norm_num
  · simp only [compute_averages, List.foldl_cons, List.foldl_nil,
      hstep1, hstep2]
    norm_num
  · simp only [compute_averages, List.foldl_cons, List.foldl_nil,
      hstep1, hstep2]

/-- C7 witness: the independence example at `now = 1000`: one
temperature-only and one humidity-only garden device give both garden means,
each from one contributor. -/
theorem C7_class_aggregates_witness :
    (compute_averages 1000 900
      [⟨"T", "garden", 1000, 20, true, 0, false⟩,
       ⟨"H", "garden", 1000, 0, false, 55, true⟩]).g_t = some 20 ∧
    (compute_averages 1000 900
      [⟨"T", "garden", 1000, 20, true, 0, false⟩,
       ⟨"H", "garden", 1000, 0, false, 55, true⟩]).g_h = some 55 :=
  ⟨(C7_class_aggregates 1000 900 [] (by simp)).2.2.2.2.2.2.1,
   (C7_class_aggregates 1000 900 [] (by simp)).2.2.2.2.2.2.2.1⟩

theorem is_finite_of_small (x : ℝ) (h1 : -100 < x) (h2 : x < 100) :
    is_finite x := by
  have hpow : (100 : ℝ) ≤ 10 ^ 300 := by
    calc (100 : ℝ) = 10 ^ 2 := by norm_num
    _ ≤ 10 ^ 300 := by
      apply pow_le_pow_right <;> norm_num
  exact ⟨by linarith, by linarith⟩

theorem dew_gamma_bounds :
    0.6461 < dew_gamma 20 50 ∧ dew_gamma 20 50 < 0.6462 := by
  have hlog : Real.log ((50 : ℝ) / 100) = - Real.log 2 := by
    rw [show ((50 : ℝ) / 100) = 2⁻¹ by norm_num, Real.log_inv]
  have hγ : dew_gamma 20 50 = 17.62 * 20 / (243.12 + 20) - Real.log 2 := by
    unfold dew_gamma
    rw [hlog]
    ring
  have hq : (17.62 * 20 / (243.12 + 20) : ℝ) = 4405 / 3289 := by norm_num
  have hl2a := Real.log_two_gt_d9
  have hl2b := Real.log_two_lt_d9
  rw [hγ, hq]
  constructor <;> nlinarith

/-- C6 (corrected): the dew point is undefined exactly when an input fails
the code's finiteness check — which rejects not only non-finite values but
every magnitude at or above 1e300, so some finite inputs are rejected too —
or the humidity is outside (0, 100]; on inputs passing the check it is
`243.12 γ / (17.62 − γ)` with `γ = ln(r/100) + 17.62 t / (243.12 + t)`;
it is undefined at r = 0 and r = 101 for every temperature; and
`dewpoint_c 20 50` lies within 0.1 of 9.3 °C. -/
theorem C6_dewpoint (t r : ℝ) :
    (dewpoint_c t r = none ↔
      ¬ is_finite t ∨ ¬ is_finite r ∨ r ≤ 0 ∨ 100 < r) ∧
    (is_finite t → is_finite r → 0 < r → r ≤ 100 →
      dewpoint_c t r =
        some ((243.12 * dew_gamma t r) / (17.62 - dew_gamma t r))) ∧
    dewpoint_c t 0 = none ∧
    dewpoint_c t 101 = none ∧
    (∀ d, dewpoint_c 20 50 = some d → |d - 9.3| ≤ 0.1) := by
  refine ⟨?_, ?_, ?_, ?_, ?_⟩
  · unfold dewpoint_c
    split_ifs with h
    · simp [h]
    · simp [h]
  · intro h1 h2 h3 h4
    unfold dewpoint_c
    rw [if_neg (by push_neg; exact ⟨h1, h2, h3, h4⟩)]
  · unfold dewpoint_c
    rw [if_pos (Or.inr (Or.inr (Or.inl le_rfl)))]
  · unfold dewpoint_c
    rw [if_pos (Or.inr (Or.inr (Or.inr (by norm_num))))]
  · intro d hd
    have hfin20 : is_finite 20 := is_finite_of_small 20 (by norm_num) (by norm_num)
    have hfin50 : is_finite 50 := is_finite_of_small 50 (by norm_num) (by norm_num)
    unfold dewpoint_c at hd
    rw [if_neg (show ¬(¬ is_finite (20 : ℝ) ∨ ¬ is_finite (50 : ℝ) ∨
        (50 : ℝ) ≤ 0 ∨ (100 : ℝ) < 50) from by
      push_neg
      exact ⟨hfin20, hfin50, by norm_num, by norm_num⟩)] at hd
    injection hd with hd
    obtain ⟨hγlo, hγhi⟩ := dew_gamma_bounds
    have hden : (0 : ℝ) < 17.62 - dew_gamma 20 50 := by linarith
    have hlo : (9.2 : ℝ) ≤ 243.12 * dew_gamma 20 50 / (17.62 - dew_gamma 20 50) := by
      rw [le_div_iff hden]
      nlinarith
    have hhi : 243.12 * dew_gamma 20 50 / (17.62 - dew_gamma 20 50) ≤ (9.4 : ℝ) := by
      rw [div_le_iff hden]
      nlinarith
    rw [hd] at hlo hhi
    rw [abs_le]
    constructor <;> [linarith; linarith]

/-- C6 witness: at (t, r) = (20 °C, 50 %) the guard hypotheses hold, the dew
point is defined, and it lies within 0.1 of 9.3 °C. -/
theorem C6_dewpoint_witness :
    dewpoint_c 20 50 =
      some ((243.12 * dew_gamma 20 50) / (17.62 - dew_gamma 20 50)) ∧
    |(243.12 * dew_gamma 20 50) / (17.62 - dew_gamma 20 50) - 9.3| ≤ 0.1 := by
  have h2 := (C6_dewpoint 20 50).2.1
    (is_finite_of_small 20 (by norm_num) (by norm_num))
    (is_finite_of_small 50 (by norm_num) (by norm_num))
    (by norm_num) (by norm_num)
  exact ⟨h2, (C6_dewpoint 20 50).2.2.2.2 _ h2⟩

/-- C6 counterexample: 1e300 is a representable, finite double and r = 50 is
inside (0, 100], so the claim demands the Magnus formula value; but the
code's `is_finite` (line 44) rejects every magnitude at or above 1e300, and
`dewpoint_c` returns NAN (`none`) instead of a defined dew point. -/
theorem C6_dewpoint_counterexample :
    dewpoint_c (10 ^ 300) 50 = none ∧ (0 : ℝ) < 50 ∧ (50 : ℝ) ≤ 100 := by
  refine ⟨?_, by norm_num, by norm_num⟩
  unfold dewpoint_c
  rw [if_pos (Or.inl (fun h => absurd h.2 (lt_irrefl _)))]

theorem qsize_spec (C h t : Nat) (hh : h < C) (ht : t < C) :
    (t + C - h) % C = if h ≤ t then t - h else t + C - h := by
  split
  · rename_i hle
    rw [show t + C - h = t - h + C from by omega, Nat.add_mod_right,
      Nat.mod_eq_of_lt (by omega)]
  · rename_i hgt
    exact Nat.mod_eq_of_lt (by omega)

theorem mod_succ_spec (x C : Nat) (hx : x < C) :
    (x + 1) % C = if x + 1 = C then 0 else x + 1 := by
  split
  · rename_i h1; rw [h1, Nat.mod_self]
  · rename_i h1; exact Nat.mod_eq_of_lt (by omega)

theorem slot_inj (C h i j : Nat) (hi : i < C) (hj : j < C)
    (heq : (h + i) % C = (h + j) % C) : i = j := by
  have hmod : i % C = j % C :=
    Nat.ModEq.add_left_cancel (Nat.ModEq.refl h) heq
  rw [Nat.mod_eq_of_lt hi, Nat.mod_eq_of_lt hj] at hmod
  exact hmod

theorem add_size_mod (C h t : Nat) (hh : h < C) (ht : t < C) :
    (h + (t + C - h) % C) % C = t := by
  rw [Nat.add_mod_mod, show h + (t + C - h) = t + C from by omega,
    Nat.add_mod_right]
  exact Nat.mod_eq_of_lt ht

theorem q_create_inv (C : Nat) (hC : 0 < C) : QueueInv C (q_create C) [] := by
  refine ⟨rfl, hC, hC, hC, by simp [q_create], ?_, ?_⟩
  · show (0 : Nat) = (0 + C - 0) % C
    rw [show 0 + C - 0 = C from by omega, Nat.mod_self]
  · intro i hi
    simp at hi

theorem q_push_inv (C : Nat) (q : LineQueue) (xs : List String) (l : String)
    (h : QueueInv C q xs) :
    QueueInv C (q_push q l) ((xs ++ [l]).drop (xs.length + 1 - (C - 1))) := by
  obtain ⟨hcap, hC, hh, ht, hbl, hlen, hget⟩ := h
  have hS : xs.length < C := by rw [hlen]; exact Nat.mod_lt _ hC
  have htail : (q.head + xs.length) % C = q.tail := by
    rw [hlen]; exact add_size_mod C q.head q.tail hh ht
  by_cases hfull : (q.tail + 1) % q.cap = q.head
  · have hfull' : (q.tail + 1) % C = q.head := by rw [← hcap]; exact hfull
    have hSfull : xs.length = C - 1 := by
      rw [hlen, qsize_spec C q.head q.tail hh ht]
      rw [mod_succ_spec q.tail C ht] at hfull'
      split at hfull' <;> split <;> omega
    have hpush : q_push q l =
        { q with buf := (q.buf.set q.head none).set q.tail (some l),
                 head := (q.head + 1) % q.cap, tail := (q.tail + 1) % q.cap } := by
      unfold q_push
      rw [if_pos hfull]
    rw [hpush, show xs.length + 1 - (C - 1) = 1 from by omega]
    refine ⟨hcap, hC, ?_, ?_, ?_, ?_, ?_⟩
    · show (q.head + 1) % q.cap < C
      rw [hcap]; exact Nat.mod_lt _ hC
    · show (q.tail + 1) % q.cap < C
      rw [hcap]; exact Nat.mod_lt _ hC
    · show ((q.buf.set q.head none).set q.tail (some l)).length = C
      rw [List.length_set, List.length_set]; exact hbl
    · show ((xs ++ [l]).drop 1).length
        = ((q.tail + 1) % q.cap + C - (q.head + 1) % q.cap) % C
      rw [List.length_drop, List.length_append, List.length_singleton,
        hcap, hfull', mod_succ_spec q.head C hh]
      split
      · rename_i h1
        rw [Nat.sub_zero, Nat.add_mod_right, Nat.mod_eq_of_lt hh]
        omega
      · rename_i h1
        rw [show q.head + C - (q.head + 1) = C - 1 from by omega,
          Nat.mod_eq_of_lt (by omega)]
        omega
    · intro i hi
      rw [List.length_drop, List.length_append, List.length_singleton] at hi
      have hi' : i < xs.length := by omega
      show ((q.buf.set q.head none).set q.tail
        (some l))[((q.head + 1) % q.cap + i) % C]? = some (((xs ++ [l]).drop 1)[i]?)
      rw [hcap]
      have hslot : ((q.head + 1) % C + i) % C = (q.head + (i + 1)) % C := by
        rw [Nat.mod_add_mod]
        congr 1
        omega
      rw [hslot, List.getElem?_drop]
      rcases Nat.lt_or_ge (i + 1) xs.length with hlast | hlast
      · have hne1 : (q.head + (i + 1)) % C ≠ q.tail := by
          intro heq
          rw [← htail] at heq
          have := slot_inj C q.head (i + 1) xs.length (by omega) hS heq
          omega
        have hne2 : (q.head + (i + 1)) % C ≠ q.head := by
          intro heq
          have heq' : (q.head + (i + 1)) % C = (q.head + 0) % C := by
            conv_rhs => rw [Nat.add_zero]
            exact heq.trans (Nat.mod_eq_of_lt hh).symm
          have := slot_inj C q.head (i + 1) 0 (by omega) hC heq'
          omega
        rw [List.getElem?_set_ne (Ne.symm hne1),
          List.getElem?_set_ne (Ne.symm hne2), hget (i + 1) (by omega),
          show 1 + i = i + 1 from Nat.add_comm 1 i,
          List.getElem?_append_left hlast]
      · have hieq : i + 1 = xs.length := by omega
        have hslot2 : (q.head + (i + 1)) % C = q.tail := by
          rw [hieq, htail]
        rw [hslot2,
          List.getElem?_set_self (by rw [List.length_set, hbl]; exact ht),
          show 1 + i = xs.length from by omega,
          List.getElem?_concat_length]
  · have hfull' : (q.tail + 1) % C ≠ q.head := by rw [← hcap]; exact hfull
    have hSnot : xs.length ≠ C - 1 := by
      intro hS1
      apply hfull'
      have h1 : q.tail = (q.head + (C - 1)) % C := by
        rw [← hS1, htail]
      rw [h1, Nat.mod_add_mod,
        show q.head + (C - 1) + 1 = q.head + C from by omega,
        Nat.add_mod_right]
      exact Nat.mod_eq_of_lt hh
    rw [show xs.length + 1 - (C - 1) = 0 from by omega, List.drop_zero]
    have hpush : q_push q l =
        { q with buf := q.buf.set q.tail (some l),
                 tail := (q.tail + 1) % q.cap } := by
      unfold q_push
      rw [if_neg hfull]
    rw [hpush]
    refine ⟨hcap, hC, hh, ?_, ?_, ?_, ?_⟩
    · show (q.tail + 1) % q.cap < C
      rw [hcap]; exact Nat.mod_lt _ hC
    · show (q.buf.set q.tail (some l)).length = C
      rw [List.length_set]; exact hbl
    · show (xs ++ [l]).length = ((q.tail + 1) % q.cap + C - q.head) % C
      rw [hcap, List.length_append, List.length_singleton]
      by_cases hTC : q.tail + 1 = C
      · have hnext : (q.tail + 1) % C = 0 := by rw [hTC]; exact Nat.mod_self C
        have hhead0 : q.head ≠ 0 := by
          rw [hnext] at hfull'
          exact fun h0 => hfull' h0.symm
        rw [hnext, Nat.zero_add, Nat.mod_eq_of_lt (by omega),
          hlen, qsize_spec C q.head q.tail hh ht, if_pos (by omega)]
        omega
      · have hnext : (q.tail + 1) % C = q.tail + 1 :=
          Nat.mod_eq_of_lt (by omega)
        rw [hnext] at hfull'
        rw [hnext, hlen, qsize_spec C q.head q.tail hh ht,
          qsize_spec C q.head (q.tail + 1) hh (by omega)]
        split <;> split <;> omega
    · intro i hi
      rw [List.length_append, List.length_singleton] at hi
      show (q.buf.set q.tail (some l))[(q.head + i) % C]?
        = some ((xs ++ [l])[i]?)
      rcases Nat.lt_or_ge i xs.length with hint | hlast
      · have hne : (q.head + i) % C ≠ q.tail := by
          intro heq
          rw [← htail] at heq
          have := slot_inj C q.head i xs.length (by omega) hS heq
          omega
        rw [List.getElem?_set_ne (Ne.symm hne), hget i hint,
          List.getElem?_append_left hint]
      · have hieq : i = xs.length := by omega
        subst hieq
        rw [htail,
          List.getElem?_set_self (by rw [hbl]; exact ht),
          List.getElem?_concat_length]

theorem q_pop_inv_cons (C : Nat) (q : LineQueue) (x : String)
    (xs : List String) (h : QueueInv C q (x :: xs)) :
    (q_pop_nowait q).1 = some x ∧ QueueInv C (q_pop_nowait q).2 xs := by
  obtain ⟨hcap, hC, hh, ht, hbl, hlen, hget⟩ := h
  have hS : (x :: xs).length < C := by rw [hlen]; exact Nat.mod_lt _ hC
  have hS' : xs.length + 1 < C := by simpa using hS
  have hlen' : xs.length + 1 = (q.tail + C - q.head) % C := by
    simpa using hlen
  have hne : q.head ≠ q.tail := by
    intro heq
    rw [heq, show q.tail + C - q.tail = C from by omega, Nat.mod_self]
      at hlen'
    omega
  have hbufhead : q.buf[q.head]? = some (some x) := by
    have h0 := hget 0 (by simp)
    rw [Nat.add_zero, Nat.mod_eq_of_lt hh] at h0
    simpa using h0
  have hpop : q_pop_nowait q =
      (q.buf.getD q.head none,
        { q with buf := q.buf.set q.head none,
                 head := (q.head + 1) % q.cap }) := by
    unfold q_pop_nowait
    rw [if_neg hne]
  constructor
  · rw [hpop]
    show q.buf.getD q.head none = some x
    rw [List.getD_eq_getElem?_getD, hbufhead]
    rfl
  · rw [hpop]
    refine ⟨hcap, hC, ?_, ht, ?_, ?_, ?_⟩
    · show (q.head + 1) % q.cap < C
      rw [hcap]; exact Nat.mod_lt _ hC
    · show (q.buf.set q.head none).length = C
      rw [List.length_set]; exact hbl
    · show xs.length = (q.tail + C - (q.head + 1) % q.cap) % C
      rw [hcap]
      by_cases hHC : q.head + 1 = C
      · have hh0 : (q.head + 1) % C = 0 := by rw [hHC]; exact Nat.mod_self C
        rw [hh0, Nat.sub_zero, Nat.add_mod_right, Nat.mod_eq_of_lt ht]
        rw [qsize_spec C q.head q.tail hh ht] at hlen'
        split at hlen' <;> omega
      · have hh1 : (q.head + 1) % C = q.head + 1 :=
          Nat.mod_eq_of_lt (by omega)
        rw [hh1, qsize_spec C (q.head + 1) q.tail (by omega) ht]
        rw [qsize_spec C q.head q.tail hh ht] at hlen'
        split at hlen' <;> split <;> omega
    · intro i hi
      show (q.buf.set q.head none)[((q.head + 1) % q.cap + i) % C]?
        = some (xs[i]?)
      rw [hcap]
      have hslot : ((q.head + 1) % C + i) % C = (q.head + (i + 1)) % C := by
        rw [Nat.mod_add_mod]
        congr 1
        omega
      rw [hslot]
      have hne2 : (q.head + (i + 1)) % C ≠ q.head := by
        intro heq
        have heq' : (q.head + (i + 1)) % C = (q.head + 0) % C := by
          conv_rhs => rw [Nat.add_zero]
          exact heq.trans (Nat.mod_eq_of_lt hh).symm
        have := slot_inj C q.head (i + 1) 0 (by omega) hC heq'
        omega
      rw [List.getElem?_set_ne (Ne.symm hne2)]
      have h1 := hget (i + 1) (by simp; omega)
      rw [List.getElem?_cons_succ] at h1
      exact h1

theorem q_pop_inv_nil (C : Nat) (q : LineQueue) (h : QueueInv C q []) :
    (q_pop_nowait q).1 = none := by
  obtain ⟨hcap, hC, hh, ht, hbl, hlen, hget⟩ := h
  have hht : q.head = q.tail := by
    have hlen0 : (0 : Nat) = (q.tail + C - q.head) % C := by simpa using hlen
    rw [qsize_spec C q.head q.tail hh ht] at hlen0
    split at hlen0 <;> omega
  unfold q_pop_nowait
  rw [if_pos hht]

theorem q_drain_inv (C : Nat) (xs : List String) :
    ∀ (q : LineQueue) (fuel : Nat), QueueInv C q xs → xs.length ≤ fuel →
      q_drain fuel q = xs := by
  induction xs with
  | nil =>
    intro q fuel h _hf
    cases fuel with
    | zero => rfl
    | succ n =>
      have h1 := q_pop_inv_nil C q h
      unfold q_drain
      cases hp : q_pop_nowait q with
      | mk a b =>
        rw [hp] at h1
        simp only at h1
        subst h1
        rfl
  | cons x xs ih =>
    intro q fuel h hf
    cases fuel with
    | zero => simp at hf
    | succ n =>
      obtain ⟨h1, h2⟩ := q_pop_inv_cons C q x xs h
      cases hp : q_pop_nowait q with
      | mk a b =>
        rw [hp] at h1 h2
        simp only at h1 h2
        subst h1
        unfold q_drain
        rw [hp]
        simp only
        rw [ih b n h2 (by simp at hf; omega)]

theorem lastN_concat {α : Type _} (n : Nat) (ys : List α) (l : α) :
    lastN n (lastN n ys ++ [l]) = lastN n (ys ++ [l]) := by
  rcases le_or_lt ys.length n with hyn | hyn
  · have hid : lastN n ys = ys := by
      unfold lastN
      rw [show ys.length - n = 0 from by omega, List.drop_zero]
    rw [hid]
  · rcases Nat.eq_zero_or_pos n with hn0 | hn0
    · subst hn0
      unfold lastN
      simp only [Nat.sub_zero]
      rw [List.drop_eq_nil_of_le le_rfl, List.drop_eq_nil_of_le le_rfl]
    · set A := lastN n ys with hAdef
      have hAlen : A.length = n := by
        rw [hAdef]
        unfold lastN
        rw [List.length_drop]
        omega
      have h1 : lastN n (A ++ [l]) = (A ++ [l]).drop 1 := by
        unfold lastN
        rw [List.length_append, List.length_singleton, hAlen,
          show n + 1 - n = 1 from by omega]
      have h2 : A ++ [l] = (ys ++ [l]).drop (ys.length - n) := by
        rw [hAdef]
        unfold lastN
        rw [List.drop_append_of_le_length (by omega)]
      rw [h1, h2, List.drop_drop]
      unfold lastN
      rw [List.length_append, List.length_singleton]
      congr 1
      omega

theorem foldl_model_lastN (n : Nat) (L : List String) :
    ∀ ys : List String,
      L.foldl (fun xs l => (xs ++ [l]).drop (xs.length + 1 - n)) (lastN n ys)
        = lastN n (ys ++ L) := by
  induction L with
  | nil =>
    intro ys
    simp
  | cons l L ih =>
    intro ys
    rw [List.foldl_cons]
    have hstep : (lastN n ys ++ [l]).drop ((lastN n ys).length + 1 - n)
        = lastN n (ys ++ [l]) := by
      conv_rhs => rw [← lastN_concat n ys l]
      unfold lastN
      rw [List.length_append, List.length_singleton]
    rw [hstep, ih (ys ++ [l]), List.append_assoc, List.singleton_append]

theorem q_push_all_inv (C : Nat) (L : List String) :
    ∀ (q : LineQueue) (xs : List String), QueueInv C q xs →
      QueueInv C (q_push_all q L)
        (L.foldl (fun ys l => (ys ++ [l]).drop (ys.length + 1 - (C - 1))) xs) := by
  induction L with
  | nil =>
    intro q xs h
    exact h
  | cons l L ih =>
    intro q xs h
    rw [show q_push_all q (l :: L) = q_push_all (q_push q l) L from rfl,
      List.foldl_cons]
    exact ih (q_push q l) _ (q_push_inv C q xs l h)

/-- C2 (corrected): the ring keeps one slot unused to distinguish full from
empty, so a queue created with capacity `C` retains at most `C - 1` lines;
pushing `C + 1` lines into an initially empty queue and popping until empty
yields exactly the most recent `C - 1` lines in their original FIFO order,
with the two oldest dropped.  Push is total: it never blocks and never
fails. -/
theorem C2_queue_amended (C : Nat) (lines : List String) (hC : 1 ≤ C)
    (hlen : lines.length = C + 1) :
    q_drain C (q_push_all (q_create C) lines) = lines.drop 2 := by
  have h0 := q_create_inv C hC
  have h1 := q_push_all_inv C lines (q_create C) [] h0
  have h2 : lines.foldl
      (fun ys l => (ys ++ [l]).drop (ys.length + 1 - (C - 1))) []
      = lastN (C - 1) lines := by
    have h3 := foldl_model_lastN (C - 1) lines []
    have h4 : lastN (C - 1) ([] : List String) = [] := by
      unfold lastN
      simp
    rw [h4] at h3
    simpa using h3
  rw [h2] at h1
  have h5 : lastN (C - 1) lines = lines.drop 2 := by
    unfold lastN
    rw [hlen]
    congr 1
    omega
  rw [h5] at h1
  exact q_drain_inv C (lines.drop 2) _ C h1
    (by rw [List.length_drop, hlen]; omega)

/-- C2 witness: capacity 2, three pushes "a", "b", "c"; draining yields the
single most recent line "c" (the effective capacity is 1). -/
theorem C2_queue_amended_witness :
    q_drain 2 (q_push_all (q_create 2) ["a", "b", "c"]) = ["c"] := by
  have h := C2_queue_amended 2 ["a", "b", "c"] (by norm_num) rfl
  simpa using h

/-- C2 counterexample: with capacity 2 the claim demands that the most recent
two lines "b", "c" survive, but draining the queue yields only "c": the ring
buffer stores at most `capacity - 1` lines. -/
theorem C2_queue_counterexample :
    ¬ (q_drain 2 (q_push_all (q_create 2) ["a", "b", "c"]) = ["b", "c"]) := by
  decide

/-- C9 witness: a top-level JSON array, and an object whose "id" is a number
with no "device_id" at all, both leave an empty registry empty. -/
theorem C9_malformed_line_discarded_witness :
    process_json_line 0 (some (Json.jarr [])) [] = [] ∧
    process_json_line 0
      (some (Json.jobj [("x", Json.jint 1), ("id", Json.jint 5)])) [] = [] :=
  ⟨(C9_malformed_line_discarded 0 []).2.1 (Json.jarr [])
      (fun _fields h => Json.noConfusion h),
   (C9_malformed_line_discarded 0 []).2.2
      [("x", Json.jint 1), ("id", Json.jint 5)] rfl rfl⟩

end SwitchbotDash
